import Mathlib

/-!
Shallow embedding of the task-store core (src/src/utils/csv.ts): the CSV
serializer `toCSV`/`escapeCsv` and the `useTasks` hook's `normalizeTasks`,
`addTask`, `updateTask`, `deleteTask`, `undoDelete`.

Modelling conventions:
* JS numbers are `JsNum`: NaN, the two infinities, or a finite rational.
  No claim depends on binary floating-point precision; the code only tests
  finiteness, sign, and applies `Math.round`/`Math.max`.
* Loosely-typed JS values (fields of raw records and of `Partial<Task>`
  patches) are `JsVal`; an absent field is `JsVal.undef`, matching the
  source's `!== undefined` presence checks and `??` coalescing.
* `Date#toISOString` is modelled by the injective rendering `isoOfMs`
  (an abstract stand-in: no claim inspects the concrete ISO-8601 digits),
  and `new Date(v).getTime()` by `dateParse` (numbers parse to their own
  millisecond value; strings parse only when they are plain integer
  literals - a model of the parseable/unparseable split, which is all the
  code distinguishes).
* `Date.now()`, `crypto.randomUUID()` and the `typeof crypto` test are
  impure reads, passed in explicitly through `Env`.
* The React `useState` pair (`tasks`, `lastDeleted`) is `StoreState`, and
  each `useCallback` mutator becomes a pure state-transition function.
-/

namespace TaskApp

/-- A JavaScript number: NaN, +Infinity, -Infinity, or a finite value. -/
inductive JsNum where
  | nan : JsNum
  | posInf : JsNum
  | negInf : JsNum
  | fin : ℚ → JsNum
deriving DecidableEq

/-- `Number.isFinite`. -/
def JsNum.isFinite : JsNum → Bool
  | .fin _ => true
  | _ => false

/-- JS `v > 0` on a number (false for NaN). -/
def JsNum.gtZero : JsNum → Bool
  | .fin q => decide (0 < q)
  | .posInf => true
  | _ => false

/-- JS `v <= 0` on a number (false for NaN). -/
def JsNum.leZero : JsNum → Bool
  | .fin q => decide (q ≤ 0)
  | .negInf => true
  | _ => false

/-- `Math.round` on a finite value: round half toward positive infinity. -/
def jsRound (q : ℚ) : ℤ := ⌊q + 1 / 2⌋

/-- A loosely-typed JavaScript value as far as the code inspects one. -/
inductive JsVal where
  | undef : JsVal
  | nullv : JsVal
  | bool : Bool → JsVal
  | num : JsNum → JsVal
  | str : String → JsVal
deriving DecidableEq

/-- `typeof v === 'string'`. -/
def JsVal.isString : JsVal → Bool
  | .str _ => true
  | _ => false

/-- JS whitespace as used by `String.prototype.trim` (ASCII subset;
the claims never exercise the exotic Unicode whitespace code points). -/
def isWsChar (c : Char) : Bool := c = ' ' || c = '\t' || c = '\n' || c = '\r'

/-- `String.prototype.trim`, structurally over the character list. -/
def jsTrim (s : String) : String :=
  String.mk (((s.data.dropWhile isWsChar).reverse.dropWhile isWsChar).reverse)

/-- Digit-string to number, for `Number('...')` on integer literals. -/
def digitsToNat : List Char → Option Nat
  | [] => none
  | cs => if cs.all (fun c => c.isDigit)
      then some (cs.foldl (fun acc c => acc * 10 + (c.toNat - 48)) 0)
      else none

/-- `Number(s)` on a string: empty/whitespace coerces to 0, optional-sign
integer literals to their value, anything else to NaN (model: the code's
inputs never carry other numeric string shapes). -/
def strToNum (s : String) : JsNum :=
  let t := jsTrim s
  if t = "" then .fin 0
  else match t.data with
    | '-' :: rest =>
        match digitsToNat rest with
        | some n => .fin (-(n : ℚ))
        | none => .nan
    | cs =>
        match digitsToNat cs with
        | some n => .fin (n : ℚ)
        | none => .nan

/-- `Number(v)` coercion. -/
def jsToNumber : JsVal → JsNum
  | .undef => .nan
  | .nullv => .fin 0
  | .bool b => .fin (if b then 1 else 0)
  | .num n => n
  | .str s => strToNum s

/-- JS truthiness. -/
def JsVal.truthy : JsVal → Bool
  | .undef => false
  | .nullv => false
  | .bool b => b
  | .num .nan => false
  | .num (.fin q) => decide (q ≠ 0)
  | .num _ => true
  | .str s => decide (s ≠ "")

/-- `typeof v === 'string' && v.trim() ? v.trim() : <absent>`: the trimmed
string when `v` is a string with non-blank trim, otherwise absent. -/
def strField (v : JsVal) : Option String :=
  match v with
  | .str s => if jsTrim s ≠ "" then some (jsTrim s) else none
  | _ => none

/-- Milliseconds per day (`24 * 3600 * 1000`). -/
def msPerDay : ℚ := 86400000

/-- Abstract injective model of `Date#toISOString` applied to a
millisecond timestamp. No claim inspects the concrete ISO-8601 text. -/
def isoOfMs (m : ℚ) : String := "@" ++ toString m

/-- Model of `new Date(v).getTime()`: `some` milliseconds when the value
parses, `none` for an Invalid Date (NaN time). Numbers are their own
timestamp; strings parse only as plain integer literals. -/
def dateParse : JsVal → Option ℚ
  | .num (.fin q) => some q
  | .num _ => none
  | .bool b => some (if b then 1 else 0)
  | .str s =>
      match strToNum s with
      | .fin q => if jsTrim s = "" then none else some q
      | _ => none
  | _ => none

/-- The canonical stored task record. -/
structure Task where
  id : String
  title : String
  revenue : JsNum
  timeTaken : JsNum
  priority : String
  status : String
  notes : String
  createdAt : String
  completedAt : Option String
deriving DecidableEq

/-- A raw, untrusted input record (`any`): every field a loose JS value,
with `undef` for a missing field. A `null`/`undefined` array element is
the all-`undef` record, per `arr[idx] ?? {}`. -/
structure RawTask where
  id : JsVal
  title : JsVal
  revenue : JsVal
  timeTaken : JsVal
  priority : JsVal
  status : JsVal
  notes : JsVal
  createdAt : JsVal
  completedAt : JsVal

/-- A `Partial<Task>` patch: `undef` marks an absent field. `updateTask`
never reads the `id`, `createdAt` or `completedAt` entries of a patch, so
they are omitted. -/
structure Patch where
  title : JsVal
  revenue : JsVal
  timeTaken : JsVal
  priority : JsVal
  status : JsVal
  notes : JsVal

/-- Impure reads of the hook, passed explicitly: `Date.now()`, whether
`crypto.randomUUID` exists, and the UUID drawn at each call site. -/
structure Env where
  hasCrypto : Bool
  uuid : Nat → String
  now : ℤ

/-- `typeof t.title === 'string' && t.title.trim() ? t.title.trim() :
'Untitled Task'` (shared verbatim by normalize, create and update). -/
def sanitizeTitle (v : JsVal) : String := (strField v).getD "Untitled Task"

/-- `Number.isFinite(revenue) ? revenue : 0` after coercion. -/
def sanitizeRevenue (v : JsVal) : JsNum :=
  let r := jsToNumber v
  if r.isFinite then r else .fin 0

/-- `Number.isFinite(tt) && tt > 0 ? Math.max(1, Math.round(tt)) : 1`
after coercion. -/
def sanitizeTimeTaken (v : JsVal) : JsNum :=
  match jsToNumber v with
  | .fin q => if 0 < q then .fin ((max 1 (jsRound q) : ℤ) : ℚ) else .fin 1
  | _ => .fin 1

/-- The closed priority enum, in source order. -/
def priorityEnum : List String := ["High", "Medium", "Low"]

/-- The closed status enum, in source order. -/
def statusEnum : List String := ["Todo", "In Progress", "Done"]

/-- The chained `v === 'A' || v === 'B' || ...` enum test with default. -/
def enumField (enum : List String) (dflt : String) (v : JsVal) : String :=
  match v with
  | .str s => if s ∈ enum then s else dflt
  | _ => dflt

/-- `typeof v === 'string' ? v : ''`. -/
def sanitizeNotes (v : JsVal) : String :=
  match v with
  | .str s => s
  | _ => ""

/-- Truthiness of the working `completedAt` (`string | undefined`):
`!completedAt` holds for `undefined` and for the empty string. -/
def completedTruthy : Option String → Bool
  | some s => decide (s ≠ "")
  | none => false

/-- One iteration of the `normalizeTasks` loop body: builds the task for
the record at index `idx`, given the ids already in the `seen` set. -/
def normalizeOne (env : Env) (idx : Nat) (seen : List String) (t : RawTask) :
    Task :=
  let id0 := (strField t.id).getD
    (if env.hasCrypto then env.uuid idx
     else "task-" ++ toString env.now ++ "-" ++ toString idx)
  let id := if id0 ∈ seen then id0 ++ "-" ++ toString idx else id0
  let fallbackMs : ℚ := (env.now : ℚ) - ((idx : ℚ) + 1) * msPerDay
  let createdMs : ℚ :=
    if t.createdAt.truthy then (dateParse t.createdAt).getD fallbackMs
    else fallbackMs
  let status := enumField statusEnum "Todo" t.status
  let completedAt0 : Option String :=
    match t.completedAt with
    | .str s => some s
    | _ => none
  let completedAt :=
    if ¬ completedTruthy completedAt0 ∧ status = "Done"
    then some (isoOfMs (createdMs + msPerDay))
    else completedAt0
  { id := id
    title := sanitizeTitle t.title
    revenue := sanitizeRevenue t.revenue
    timeTaken := sanitizeTimeTaken t.timeTaken
    priority := enumField priorityEnum "Low" t.priority
    status := status
    notes := sanitizeNotes t.notes
    createdAt := isoOfMs createdMs
    completedAt := completedAt }

/-- The `for (let idx ...)` loop of `normalizeTasks`, threading the index
and the `seen` id set (a JS `Set`, modelled by list membership). -/
def normalizeGo (env : Env) : Nat → List String → List RawTask → List Task
  | _, _, [] => []
  | idx, seen, t :: rest =>
    let task := normalizeOne env idx seen t
    task :: normalizeGo env (idx + 1) (task.id :: seen) rest

/-- `normalizeTasks(input)`. A non-array input is the empty list. -/
def normalizeTasks (env : Env) (input : List RawTask) : List Task :=
  normalizeGo env 0 [] input

/-- The store's state: the live collection plus the single undo slot. -/
structure StoreState where
  tasks : List Task
  lastDeleted : Option Task
deriving DecidableEq

/-- `addTask(task)`: sanitize every field, resolve an id collision with
the current collection by suffixing the collection length, stamp
`createdAt` with the current time, and append. -/
def addTask (env : Env) (t : RawTask) (s : StoreState) : StoreState :=
  let id0 := (strField t.id).getD
    (if env.hasCrypto then env.uuid 0 else "task-" ++ toString env.now)
  let id := if id0 ∈ s.tasks.map Task.id
    then id0 ++ "-" ++ toString s.tasks.length else id0
  let status := enumField statusEnum "Todo" t.status
  let createdAt := isoOfMs (env.now : ℚ)
  let nt : Task :=
    { id := id
      title := sanitizeTitle t.title
      revenue := sanitizeRevenue t.revenue
      timeTaken := sanitizeTimeTaken t.timeTaken
      priority := enumField priorityEnum "Low" t.priority
      status := status
      notes := sanitizeNotes t.notes
      createdAt := createdAt
      completedAt := if status = "Done" then some createdAt else none }
  { s with tasks := s.tasks ++ [nt] }

/-- The two sequential `completedAt` rules of `updateTask`'s map body:
a move into Done sets it when it is not already truthy, a move away from
Done clears it. They read only the old status, the merged status and the
old `completedAt` (a patch can never set `completedAt` directly). -/
def applyCompletedRules (env : Env) (t : Task) (newStatus : String) :
    Option String :=
  let ca1 :=
    if t.status ≠ "Done" ∧ newStatus = "Done" ∧ ¬ completedTruthy t.completedAt
    then some (isoOfMs (env.now : ℚ))
    else t.completedAt
  if t.status = "Done" ∧ newStatus ≠ "Done" then none else ca1

/-- The per-field sanitizing merge of `updateTask`'s map body for the
matching task, including the two `completedAt` transition rules. -/
def mergePatch (env : Env) (patch : Patch) (t : Task) : Task :=
  let title := if patch.title = .undef then t.title else sanitizeTitle patch.title
  let revenue :=
    if patch.revenue = .undef then t.revenue
    else
      let r := jsToNumber patch.revenue
      if r.isFinite then r else t.revenue
  let timeTaken :=
    if patch.timeTaken = .undef then t.timeTaken
    else
      match jsToNumber patch.timeTaken with
      | .fin q =>
          if 0 < q then JsNum.fin ((max 1 (jsRound q) : ℤ) : ℚ) else t.timeTaken
      | _ => t.timeTaken
  let priority :=
    if patch.priority = .undef then t.priority
    else
      match patch.priority with
      | .str s => if s ∈ priorityEnum then s else t.priority
      | _ => t.priority
  let status :=
    if patch.status = .undef then t.status
    else
      match patch.status with
      | .str s => if s ∈ statusEnum then s else t.status
      | _ => t.status
  let notes :=
    if patch.notes = .undef then t.notes
    else
      match patch.notes with
      | .str s => s
      | _ => t.notes
  { id := t.id
    title := title
    revenue := revenue
    timeTaken := timeTaken
    priority := priority
    status := status
    notes := notes
    createdAt := t.createdAt
    completedAt := applyCompletedRules env t status }

/-- The full map body of `updateTask`'s first pass: `if (t.id !== id)
return t;` then the sanitizing merge. -/
def mergeBody (env : Env) (id : String) (patch : Patch) (t : Task) : Task :=
  if t.id ≠ id then t else mergePatch env patch t

/-- `patch.timeTaken ?? merged.timeTaken`: nullish coalescing onto the
merged task's stored value. -/
def coalesceTT (p : JsVal) (cur : JsNum) : JsVal :=
  match p with
  | .undef => .num cur
  | .nullv => .num cur
  | v => v

/-- `updateTask`'s second pass over the merged list:
`t.id === id && (patch.timeTaken ?? t.timeTaken) <= 0` forces 1. -/
def forceTT (id : String) (patch : Patch) (t : Task) : Task :=
  if t.id = id ∧ (jsToNumber (coalesceTT patch.timeTaken t.timeTaken)).leZero
  then { t with timeTaken := .fin 1 }
  else t

/-- `updateTask(id, patch)`. -/
def updateTask (env : Env) (id : String) (patch : Patch) (s : StoreState) :
    StoreState :=
  { s with tasks := (s.tasks.map (mergeBody env id patch)).map (forceTT id patch) }

/-- `deleteTask(id)`: `prev.find(...) || null` into the undo slot, then
filter the id out of the collection. -/
def deleteTask (id : String) (s : StoreState) : StoreState :=
  { tasks := s.tasks.filter (fun t => t.id ≠ id)
    lastDeleted := s.tasks.find? (fun t => t.id = id) }

/-- `undoDelete()`: re-append the held record and clear the slot; no-op
when the slot is empty. -/
def undoDelete (s : StoreState) : StoreState :=
  match s.lastDeleted with
  | none => s
  | some t => { tasks := s.tasks ++ [t], lastDeleted := none }

/-- `clearLastDeleted()`. -/
def clearLastDeleted (s : StoreState) : StoreState :=
  { s with lastDeleted := none }

/-- The regex test `/[",\n,\r]/` (the character class: quote, comma,
line feed, carriage return). -/
def hasSpecialChar (s : String) : Bool :=
  s.data.any (fun c => c = '"' || c = ',' || c = '\n' || c = '\r')

/-- `v.replace(/"/g, '""')` over the character list. -/
def doubleQuotesAux : List Char → List Char
  | [] => []
  | c :: rest =>
      if c = '"' then '"' :: '"' :: doubleQuotesAux rest
      else c :: doubleQuotesAux rest

/-- `v.replace(/"/g, '""')`. -/
def doubleQuotes (s : String) : String := String.mk (doubleQuotesAux s.data)

/-- `escapeCsv(v)` (our strings are total, so the `v == null` guard never
fires). -/
def escapeCsv (v : String) : String :=
  if hasSpecialChar v then "\"" ++ doubleQuotes v ++ "\"" else doubleQuotes v

/-- `String(Number.isFinite(n) ? n : '')`: the decimal rendering of a
finite number (abstract stand-in; it never contains the CSV special
characters, and no claim inspects its digits), empty otherwise. -/
def renderNum : JsNum → String
  | .fin q => toString q
  | _ => ""

/-- One data row of `toCSV`: the fields in fixed order joined by commas.
Only `title` and `notes` pass through `escapeCsv`. -/
def rowOf (t : Task) : String :=
  String.intercalate ","
    [t.id, escapeCsv t.title, renderNum t.revenue, renderNum t.timeTaken,
     t.priority, t.status, escapeCsv t.notes]

/-- `toCSV(tasks)`. -/
def toCSV (tasks : List Task) : String :=
  String.intercalate "\n"
    (String.intercalate ","
        ["id", "title", "revenue", "timeTaken", "priority", "status", "notes"]
      :: tasks.map rowOf)

/-- Follows the spec's words: "any field value containing a comma, quote,
or line break is wrapped in quotes with embedded quotes doubled" - the
escape as the spec describes it, for comparison with `escapeCsv`. -/
def escSpecWords (v : String) : String :=
  if hasSpecialChar v then "\"" ++ doubleQuotes v ++ "\"" else v

/-- Follows the spec's words for one row: the fixed column order with the
quoting rule applied to every field value, the id included. -/
def rowClaimWords (t : Task) : String :=
  String.intercalate ","
    [escSpecWords t.id, escSpecWords t.title, escSpecWords (renderNum t.revenue),
     escSpecWords (renderNum t.timeTaken), escSpecWords t.priority,
     escSpecWords t.status, escSpecWords t.notes]

/-- Follows the spec's words for the whole table, to be compared with the
source's `toCSV`. -/
def toCSVClaimWords (tasks : List Task) : String :=
  String.intercalate "\n"
    (String.intercalate ","
        ["id", "title", "revenue", "timeTaken", "priority", "status", "notes"]
      :: tasks.map rowClaimWords)

/-- The claim-side timeTaken rule, integer-valued: 1 when the coerced
number is not finite or not > 0, otherwise rounded and floored at 1. -/
def timeTakenSpec : JsNum → ℤ
  | .fin q => if 0 < q then max 1 (jsRound q) else 1
  | _ => 1

/-!  Concrete fixtures used by witnesses and counterexamples. -/

/-- A deterministic environment: no `crypto`, clock at 0. -/
def env0 : Env := { hasCrypto := false, uuid := fun _ => "u", now := 0 }

/-- A benign raw record carrying the supplied id `idv`; the numeric
`createdAt` keeps the date fallback arithmetic out of the picture. -/
def mkRaw (idv : JsVal) : RawTask :=
  { id := idv
    title := .str "T"
    revenue := .num (.fin 0)
    timeTaken := .num (.fin 1)
    priority := .undef
    status := .str "Todo"
    notes := .undef
    createdAt := .num (.fin 7)
    completedAt := .undef }

/-- A raw record that supplies a string `completedAt` while its status is
Todo. -/
def rawStaleCompleted : RawTask :=
  { mkRaw (.str "a") with completedAt := .str "2020-01-01" }

/-- A stored task with id `x-2`. -/
def taskA : Task :=
  { id := "x-2"
    title := "A"
    revenue := .fin 0
    timeTaken := .fin 1
    priority := "Low"
    status := "Todo"
    notes := ""
    createdAt := "@0"
    completedAt := none }

/-- A stored task with id `x`. -/
def taskB : Task := { taskA with id := "x" }

/-- A stored task with id `a`, title `Hello` and timeTaken 10. -/
def taskHello : Task := { taskA with id := "a", title := "Hello", timeTaken := .fin 10 }

/-- A patch carrying a blank title and a negative timeTaken. -/
def patchBad : Patch :=
  { title := .str "   "
    revenue := .undef
    timeTaken := .num (.fin (-5))
    priority := .undef
    status := .undef
    notes := .undef }

/-- The everything-absent patch. -/
def patchNone : Patch :=
  { title := .undef
    revenue := .undef
    timeTaken := .undef
    priority := .undef
    status := .undef
    notes := .undef }

/-- A stored task whose id contains a comma. -/
def taskCommaId : Task := { taskA with id := "a,b", revenue := .fin 5 }

/-!  Helper lemmas. -/

/-- Mapping a function that fixes every element of a list is the identity. -/
theorem map_fix {α : Type} (f : α → α) (l : List α) (h : ∀ a ∈ l, f a = a) :
    l.map f = l := by
  rw [List.map_congr_left h, List.map_id']

/-- `forceTT` never changes a task's id. -/
theorem forceTT_id (id : String) (p : Patch) (t : Task) :
    (forceTT id p t).id = t.id := by
  unfold forceTT
  split <;> rfl

/-- `forceTT` never changes a task's status. -/
theorem forceTT_status (id : String) (p : Patch) (t : Task) :
    (forceTT id p t).status = t.status := by
  unfold forceTT
  split <;> rfl

/-- `forceTT` never changes a task's `completedAt`. -/
theorem forceTT_completedAt (id : String) (p : Patch) (t : Task) :
    (forceTT id p t).completedAt = t.completedAt := by
  unfold forceTT
  split <;> rfl

/-- The two `completedAt` rules re-establish the present-iff-Done
invariant for the merged status, whatever the old task satisfied it. -/
theorem applyCompletedRules_inv (env : Env) (t : Task) (ns : String)
    (h : t.completedAt ≠ none ↔ t.status = "Done") :
    applyCompletedRules env t ns ≠ none ↔ ns = "Done" := by
  unfold applyCompletedRules
  by_cases h1 : t.status = "Done" ∧ ns ≠ "Done"
  · rw [if_pos h1]
    simp [h1.2]
  · rw [if_neg h1]
    by_cases h2 : t.status ≠ "Done" ∧ ns = "Done" ∧ ¬ completedTruthy t.completedAt
    · rw [if_pos h2]
      simp [h2.2.1]
    · rw [if_neg h2]
      by_cases hd : t.status = "Done"
      · have hns : ns = "Done" := by
          by_contra hns
          exact h1 ⟨hd, hns⟩
        simp [hns, h.mpr hd]
      · have hca : t.completedAt = none := by
          by_contra hca
          exact hd (h.mp hca)
        have hns : ns ≠ "Done" := by
          intro hns
          apply h2
          refine ⟨hd, hns, ?_⟩
          rw [hca]
          simp [completedTruthy]
        simp [hca, hns]

/-- `mergePatch` preserves the present-iff-Done invariant. -/
theorem mergePatch_inv (env : Env) (p : Patch) (t : Task)
    (h : t.completedAt ≠ none ↔ t.status = "Done") :
    (mergePatch env p t).completedAt ≠ none ↔ (mergePatch env p t).status = "Done" :=
  applyCompletedRules_inv env t _ h

/-- `enumField` always lands in the enum when the default is in it. -/
theorem enumField_mem (enum : List String) (dflt : String) (v : JsVal)
    (hd : dflt ∈ enum) : enumField enum dflt v ∈ enum := by
  cases v <;> simp only [enumField] <;> try exact hd
  split
  · assumption
  · exact hd

/-- `enumField` keeps a supplied member of the enum. -/
theorem enumField_keep (enum : List String) (dflt : String) (s0 : String)
    (h : s0 ∈ enum) : enumField enum dflt (.str s0) = s0 := by
  simp [enumField, h]

/-- `enumField` replaces anything outside the enum with the default. -/
theorem enumField_dflt (enum : List String) (dflt : String) (v : JsVal)
    (h : ∀ s0, v = .str s0 → s0 ∉ enum) : enumField enum dflt v = dflt := by
  unfold enumField
  cases v with
  | str s => exact if_neg (h s rfl)
  | _ => rfl

/-- Doubling quotes in a quote-free character list is the identity. -/
theorem doubleQuotesAux_fix (l : List Char) (h : ∀ c ∈ l, ¬ c = '"') :
    doubleQuotesAux l = l := by
  induction l with
  | nil => rfl
  | cons c rest ih =>
      unfold doubleQuotesAux
      rw [if_neg (h c (List.mem_cons_self c rest))]
      rw [ih (fun d hd => h d (List.mem_cons_of_mem c hd))]

/-- Doubling quotes in a string with no special character is the identity. -/
theorem doubleQuotes_fix (s : String) (h : hasSpecialChar s = false) :
    doubleQuotes s = s := by
  have hq : ∀ c ∈ s.data, ¬ c = '"' := by
    intro c hc heq
    have hall := List.any_eq_false.mp h c hc
    simp [heq] at hall
  unfold doubleQuotes
  rw [doubleQuotesAux_fix s.data hq]

/-- The source's `escapeCsv` implements exactly the spec-worded escape. -/
theorem escapeCsv_eq_spec (v : String) : escapeCsv v = escSpecWords v := by
  unfold escapeCsv escSpecWords
  cases h : hasSpecialChar v with
  | false => simp [doubleQuotes_fix v h]
  | true => rfl

/-!  Claim theorems. -/

/-- Claim C1: id uniqueness is NOT an invariant of the store. Evaluating
`addTask` with the caller-supplied id `x` on a collection whose ids are
`x-2` and `x` shows the collision is resolved by suffixing the collection
length without re-checking, producing the duplicate id `x-2`. -/
theorem addTask_duplicate_id_bug :
    ((addTask env0 (mkRaw (.str "x"))
        { tasks := [taskA, taskB], lastDeleted := none }).tasks.map Task.id)
      = ["x-2", "x", "x-2"]
    ∧ ¬ ((addTask env0 (mkRaw (.str "x"))
        { tasks := [taskA, taskB], lastDeleted := none }).tasks.map Task.id).Nodup := by
  constructor <;> decide

/-- Claim C4 counterexample: `deleteTask` with an id absent from the
collection does NOT leave the undo slot unchanged - it overwrites a held
record with the empty slot. -/
theorem deleteTask_unknown_clears_slot :
    (deleteTask "zzz" { tasks := [taskA], lastDeleted := some taskB }).lastDeleted = none
    ∧ ({ tasks := [taskA], lastDeleted := some taskB } : StoreState).lastDeleted ≠ none := by
  constructor <;> decide

/-- Claim C4 (amended): with an id absent from the live collection,
`updateTask` is a complete silent no-op, and `deleteTask` leaves the
collection unchanged and raises no error but clears the undo slot
(overwriting whatever it held) rather than leaving it untouched. -/
theorem unknown_id_mutations (env : Env) (id : String) (patch : Patch)
    (s : StoreState) (h : id ∉ s.tasks.map Task.id) :
    updateTask env id patch s = s
    ∧ (deleteTask id s).tasks = s.tasks
    ∧ (deleteTask id s).lastDeleted = none := by
  have hne : ∀ t ∈ s.tasks, t.id ≠ id := by
    intro t ht heq
    exact h (heq ▸ List.mem_map_of_mem Task.id ht)
  refine ⟨?_, ?_, ?_⟩
  · have h1 : s.tasks.map (mergeBody env id patch) = s.tasks :=
      map_fix _ _ (fun t ht => by simp [mergeBody, hne t ht])
    have h2 : s.tasks.map (forceTT id patch) = s.tasks :=
      map_fix _ _ (fun t ht => by simp [forceTT, hne t ht])
    show { s with tasks := (s.tasks.map (mergeBody env id patch)).map (forceTT id patch) } = s
    rw [h1, h2]
  · exact List.filter_eq_self.mpr (fun t ht => by simpa using hne t ht)
  · exact List.find?_eq_none.mpr (fun t ht => by simpa using hne t ht)

/-- Claim C4 witness: the amended no-op facts at a concrete store whose
only task has id `x-2`, mutated with the unknown id `b`. -/
theorem unknown_id_mutations_witness :
    ("b" ∉ ({ tasks := [taskA], lastDeleted := some taskB } : StoreState).tasks.map Task.id)
    ∧ updateTask env0 "b" patchNone { tasks := [taskA], lastDeleted := some taskB }
        = { tasks := [taskA], lastDeleted := some taskB } :=
  ⟨by decide, (unknown_id_mutations env0 "b" patchNone
      { tasks := [taskA], lastDeleted := some taskB } (by decide)).1⟩

/-- Claim C5: the id suffixing of `normalizeTasks` is NOT collision-free.
Evaluating the batch with supplied ids `x-2`, `x`, `x` shows the third
record's suffixed id `x-2` duplicates the first record's id. -/
theorem normalize_duplicate_id_bug :
    ((normalizeTasks env0
        [mkRaw (.str "x-2"), mkRaw (.str "x"), mkRaw (.str "x")]).map Task.id)
      = ["x-2", "x", "x-2"]
    ∧ ¬ ((normalizeTasks env0
        [mkRaw (.str "x-2"), mkRaw (.str "x"), mkRaw (.str "x")]).map Task.id).Nodup := by
  constructor <;> decide

/-- Claim C6: deleting an existing task and immediately undoing appends
the very record that was removed (all field values, id included) at the
end of the collection and clears the undo slot, and a second undo is a
no-op. -/
theorem delete_undo_roundtrip (s : StoreState) (X : String) (t : Task)
    (h : s.tasks.find? (fun u => u.id = X) = some t) :
    undoDelete (deleteTask X s)
      = { tasks := s.tasks.filter (fun u => u.id ≠ X) ++ [t], lastDeleted := none }
    ∧ undoDelete (undoDelete (deleteTask X s)) = undoDelete (deleteTask X s) := by
  have h1 : deleteTask X s
      = { tasks := s.tasks.filter (fun u => u.id ≠ X), lastDeleted := some t } := by
    simp [deleteTask, h]
  rw [h1]
  exact ⟨rfl, rfl⟩

/-- Claim C6 witness: the round trip at a concrete two-task store,
deleting the task with id `x`. -/
theorem delete_undo_roundtrip_witness :
    (({ tasks := [taskA, taskB], lastDeleted := none } : StoreState).tasks.find?
        (fun u => u.id = "x") = some taskB)
    ∧ undoDelete (deleteTask "x" { tasks := [taskA, taskB], lastDeleted := none })
        = { tasks := ({ tasks := [taskA, taskB], lastDeleted := none } : StoreState).tasks.filter
              (fun u => u.id ≠ "x") ++ [taskB]
            lastDeleted := none } :=
  ⟨by decide, (delete_undo_roundtrip
      { tasks := [taskA, taskB], lastDeleted := none } "x" taskB (by decide)).1⟩

/-- Claim C9 counterexample: on a task whose id contains a comma, `toCSV`
differs from the spec-worded table in which every field value containing
a comma, quote or line break - the id included - is quoted. -/
theorem toCSV_id_unescaped :
    toCSV [taskCommaId] ≠ toCSVClaimWords [taskCommaId] := by decide

/-- Claim C9 (amended): `toCSV` produces the fixed column order id,
title, revenue, timeTaken, priority, status, notes, applying the quoting
rule (wrap in quotes, double embedded quotes, when the value contains a
comma, quote or line break) to the title and notes columns only; id,
priority and status are emitted verbatim, and the numeric columns are
decimal renderings. -/
theorem toCSV_escaping (tasks : List Task) :
    toCSV tasks
      = String.intercalate "\n"
          (String.intercalate ","
              ["id", "title", "revenue", "timeTaken", "priority", "status", "notes"]
            :: tasks.map (fun t =>
                String.intercalate ","
                  [t.id, escSpecWords t.title, renderNum t.revenue,
                   renderNum t.timeTaken, t.priority, t.status,
                   escSpecWords t.notes])) := by
  unfold toCSV
  congr 1
  congr 1
  apply List.map_congr_left
  intro t ht
  unfold rowOf
  rw [escapeCsv_eq_spec, escapeCsv_eq_spec]

/-- Claim C10: `addTask` appends exactly one task, leaving the existing
prefix untouched; `updateTask` rewrites the collection elementwise (so
length and order are preserved) and fixes every task whose id is not the
target. -/
theorem frame_properties (env : Env) (r : RawTask) (id : String)
    (patch : Patch) (s : StoreState) :
    (∃ nt, (addTask env r s).tasks = s.tasks ++ [nt])
    ∧ ((updateTask env id patch s).tasks
        = s.tasks.map (fun t => forceTT id patch (mergeBody env id patch t)))
    ∧ ((updateTask env id patch s).tasks.length = s.tasks.length)
    ∧ (∀ t : Task, t.id ≠ id → forceTT id patch (mergeBody env id patch t) = t) := by
  refine ⟨⟨_, rfl⟩, ?_, ?_, ?_⟩
  · show (s.tasks.map (mergeBody env id patch)).map (forceTT id patch) = _
    rw [List.map_map]
    rfl
  · simp [updateTask]
  · intro t ht
    simp [mergeBody, forceTT, ht]

/-- Claim C10 witness: the untouched-other-task fact at a concrete task
whose id `x-2` differs from the target id `x`. -/
theorem frame_properties_witness :
    (taskA.id ≠ "x")
    ∧ forceTT "x" patchNone (mergeBody env0 "x" patchNone taskA) = taskA :=
  ⟨by decide, (frame_properties env0 (mkRaw .undef) "x" patchNone
      { tasks := [], lastDeleted := none }).2.2.2 taskA (by decide)⟩

/-- Claim C2 counterexample: `normalizeTasks` keeps a raw string
`completedAt` on a record whose status is Todo, so the produced task has
`completedAt` present while its status is not Done. -/
theorem normalize_keeps_stale_completedAt :
    ((normalizeTasks env0 [rawStaleCompleted]).map
        (fun t => (t.completedAt, t.status)))
      = [(some "2020-01-01", "Todo")]
    ∧ ¬ ((normalizeTasks env0 [rawStaleCompleted]).all
          (fun t => decide (t.completedAt ≠ none ↔ t.status = "Done")) = true) := by
  constructor <;> decide

/-- Claim C2 (amended): a task produced by `normalizeTasks` has
`completedAt` present exactly when the raw record supplied a string
`completedAt` or the normalized status is Done (so Done always implies
present, but a supplied string survives on non-Done tasks); `updateTask`
preserves the present-iff-Done invariant on every collection that
satisfies it, setting `completedAt` on a transition into Done and
clearing it on a transition out. -/
theorem completedAt_rules (env env2 : Env) (idx : ℕ) (seen : List String)
    (r : RawTask) (id : String) (patch : Patch) (s : StoreState) :
    ((normalizeOne env idx seen r).completedAt ≠ none ↔
      (r.completedAt.isString = true ∨ (normalizeOne env idx seen r).status = "Done"))
    ∧ ((∀ t ∈ s.tasks, t.completedAt ≠ none ↔ t.status = "Done") →
        ∀ u ∈ (updateTask env2 id patch s).tasks,
          u.completedAt ≠ none ↔ u.status = "Done") := by
  constructor
  · cases hr : r.completedAt
    case str s0 =>
      simp only [normalizeOne, hr, JsVal.isString]
      refine ⟨fun _ => Or.inl (by simp), fun _ => ?_⟩
      split <;> simp
    all_goals
      simp only [normalizeOne, hr, JsVal.isString, completedTruthy]
      split
      next hcond => simp [hcond.2]
      next hcond => simp_all [completedTruthy]
  · intro hinv u hu
    have hshape : (updateTask env2 id patch s).tasks
        = s.tasks.map (fun t => forceTT id patch (mergeBody env2 id patch t)) := by
      show (s.tasks.map (mergeBody env2 id patch)).map (forceTT id patch) = _
      rw [List.map_map]
      rfl
    rw [hshape] at hu
    obtain ⟨t, ht, rfl⟩ := List.mem_map.mp hu
    rw [forceTT_completedAt, forceTT_status]
    unfold mergeBody
    split
    · exact hinv t ht
    · exact mergePatch_inv env2 patch t (hinv t ht)

/-- Claim C2 witness: the preserved invariant at the concrete store
holding only `taskHello` (status Todo, no `completedAt`), updated with
the empty patch. -/
theorem completedAt_rules_witness :
    ((forceTT "a" patchNone (mergeBody env0 "a" patchNone taskHello)).completedAt ≠ none
      ↔ (forceTT "a" patchNone (mergeBody env0 "a" patchNone taskHello)).status = "Done") :=
  (completedAt_rules env0 env0 0 [] (mkRaw .undef) "a" patchNone
      { tasks := [taskHello], lastDeleted := none }).2 (by decide) _ (by decide)

/-- Claim C3 counterexample: on a task titled `Hello` with timeTaken 10,
the patch carrying the blank title `"   "` and timeTaken -5 does not keep
the existing values: the title becomes the hardcoded default
`Untitled Task`, and timeTaken is forced to 1 even though the value
resulting from the sanitizing merge (10) is positive. -/
theorem updateTask_patch_cex :
    ((updateTask env0 "a" patchBad { tasks := [taskHello], lastDeleted := none }).tasks.map
        (fun t => (t.title, t.timeTaken)))
      ≠ [(taskHello.title, taskHello.timeTaken)]
    ∧ ((updateTask env0 "a" patchBad { tasks := [taskHello], lastDeleted := none }).tasks.map
        (fun t => (t.title, t.timeTaken)))
      = [("Untitled Task", JsNum.fin 1)] := by
  constructor <;> decide

/-- Claim C3 (amended): `updateTask` applies only the fields present in
the patch; invalid revenue, timeTaken, priority, status and notes patch
values are ignored in favour of the existing value, but an invalid
(blank or non-string) title patch falls back to the hardcoded default
`Untitled Task`; and the final pass forces timeTaken to 1 for the target
task exactly when the raw patch timeTaken (or, when the patch has none,
the merged timeTaken) compares at or below 0 - regardless of the merged
value. -/
theorem updateTask_patch_rules (env : Env) (id : String) (patch : Patch)
    (t : Task) :
    (∀ s : StoreState, (updateTask env id patch s).tasks
        = (s.tasks.map (mergeBody env id patch)).map (forceTT id patch))
    ∧ (t.id = id → mergeBody env id patch t = mergePatch env patch t)
    ∧ (patch.title = .undef → (mergePatch env patch t).title = t.title)
    ∧ (patch.title ≠ .undef → strField patch.title = none →
        (mergePatch env patch t).title = "Untitled Task")
    ∧ (∀ s0, strField patch.title = some s0 → (mergePatch env patch t).title = s0)
    ∧ (patch.revenue = .undef → (mergePatch env patch t).revenue = t.revenue)
    ∧ (patch.revenue ≠ .undef → (jsToNumber patch.revenue).isFinite = false →
        (mergePatch env patch t).revenue = t.revenue)
    ∧ (patch.timeTaken = .undef → (mergePatch env patch t).timeTaken = t.timeTaken)
    ∧ (patch.timeTaken ≠ .undef →
        ((jsToNumber patch.timeTaken).isFinite = false
          ∨ (jsToNumber patch.timeTaken).gtZero = false) →
        (mergePatch env patch t).timeTaken = t.timeTaken)
    ∧ (patch.priority = .undef → (mergePatch env patch t).priority = t.priority)
    ∧ (patch.priority ≠ .undef →
        (∀ s0, patch.priority = .str s0 → s0 ∉ priorityEnum) →
        (mergePatch env patch t).priority = t.priority)
    ∧ (patch.status = .undef → (mergePatch env patch t).status = t.status)
    ∧ (patch.status ≠ .undef →
        (∀ s0, patch.status = .str s0 → s0 ∉ statusEnum) →
        (mergePatch env patch t).status = t.status)
    ∧ (patch.notes = .undef → (mergePatch env patch t).notes = t.notes)
    ∧ (patch.notes ≠ .undef → patch.notes.isString = false →
        (mergePatch env patch t).notes = t.notes)
    ∧ (∀ u : Task, u.id = id →
        (jsToNumber (coalesceTT patch.timeTaken u.timeTaken)).leZero = true →
        (forceTT id patch u).timeTaken = .fin 1)
    ∧ (∀ u : Task,
        (jsToNumber (coalesceTT patch.timeTaken u.timeTaken)).leZero = false →
        forceTT id patch u = u) := by
  refine ⟨fun s => rfl, ?_, ?_, ?_, ?_, ?_, ?_, ?_, ?_, ?_, ?_, ?_, ?_, ?_, ?_, ?_, ?_⟩
  · intro h
    simp [mergeBody, h]
  · intro h
    simp [mergePatch, h]
  · intro h1 h2
    simp [mergePatch, h1, sanitizeTitle, h2]
  · intro s0 h
    have h1 : patch.title ≠ .undef := by
      intro he
      rw [he] at h
      simp [strField] at h
    simp [mergePatch, h1, sanitizeTitle, h]
  · intro h
    simp [mergePatch, h]
  · intro h1 h2
    simp [mergePatch, h1, h2]
  · intro h
    simp [mergePatch, h]
  · intro h1 h2
    simp only [mergePatch]
    rw [if_neg h1]
    cases hj : jsToNumber patch.timeTaken
    case fin q =>
      have hq : ¬ (0 < q) := by
        rcases h2 with h2 | h2
        · rw [hj] at h2
          simp [JsNum.isFinite] at h2
        · rw [hj] at h2
          simpa [JsNum.gtZero] using h2
      simp [hq]
    all_goals rfl
  · intro h
    simp [mergePatch, h]
  · intro h1 h2
    simp only [mergePatch]
    rw [if_neg h1]
    cases hp : patch.priority
    case str s0 => simp [h2 s0 hp]
    all_goals rfl
  · intro h
    simp [mergePatch, h]
  · intro h1 h2
    simp only [mergePatch]
    rw [if_neg h1]
    cases hp : patch.status
    case str s0 => simp [h2 s0 hp]
    all_goals rfl
  · intro h
    simp [mergePatch, h]
  · intro h1 h2
    simp only [mergePatch]
    rw [if_neg h1]
    cases hn : patch.notes
    case str s0 =>
      rw [hn] at h2
      simp [JsVal.isString] at h2
    all_goals rfl
  · intro u h1 h2
    simp [forceTT, h1, h2]
  · intro u h2
    simp [forceTT, h2]

/-- Claim C3 witness: at the blank-title patch and `taskHello`, the
hypotheses of the title-default rule hold and the merge produces the
default title. -/
theorem updateTask_patch_rules_witness :
    (patchBad.title ≠ .undef) ∧ (strField patchBad.title = none)
    ∧ (mergePatch env0 patchBad taskHello).title = "Untitled Task" :=
  ⟨by decide, by decide,
    (updateTask_patch_rules env0 "a" patchBad taskHello).2.2.2.1 (by decide) (by decide)⟩

/-- The shared timeTaken sanitization equals the claim-side integer rule. -/
theorem sanitizeTimeTaken_spec (v : JsVal) :
    sanitizeTimeTaken v = .fin ((timeTakenSpec (jsToNumber v) : ℤ) : ℚ) := by
  unfold sanitizeTimeTaken timeTakenSpec
  cases hj : jsToNumber v
  case fin q =>
    by_cases h0 : 0 < q
    · simp [h0]
    · simp [h0]
  all_goals simp

/-- Claim C7: both `normalizeTasks` (per record) and `addTask` store as
timeTaken the integer that is 1 when the coerced number is not finite or
not > 0, and otherwise the value rounded to the nearest integer and
floored at 1; that integer is always ≥ 1. -/
theorem timeTaken_normalization (env : Env) (idx : ℕ) (seen : List String)
    (r : RawTask) (s : StoreState) :
    ((normalizeOne env idx seen r).timeTaken
        = .fin ((timeTakenSpec (jsToNumber r.timeTaken) : ℤ) : ℚ))
    ∧ ((addTask env r s).tasks.map Task.timeTaken
        = s.tasks.map Task.timeTaken
          ++ [.fin ((timeTakenSpec (jsToNumber r.timeTaken) : ℤ) : ℚ)])
    ∧ (∀ v : JsNum, 1 ≤ timeTakenSpec v)
    ∧ (∀ v : JsNum, v.isFinite = false ∨ v.gtZero = false → timeTakenSpec v = 1)
    ∧ (∀ q : ℚ, 0 < q → timeTakenSpec (.fin q) = max 1 (jsRound q)) := by
  refine ⟨sanitizeTimeTaken_spec r.timeTaken, ?_, ?_, ?_, ?_⟩
  · simp [addTask, sanitizeTimeTaken_spec]
  · intro v
    cases v
    case fin q =>
      show (1 : ℤ) ≤ if 0 < q then max 1 (jsRound q) else 1
      by_cases h0 : 0 < q
      · rw [if_pos h0]
        exact le_max_left 1 _
      · rw [if_neg h0]
    all_goals exact le_refl (1 : ℤ)
  · intro v h
    cases v
    case fin q =>
      rcases h with h | h
      · simp [JsNum.isFinite] at h
      · have hq : ¬ (0 < q) := by simpa [JsNum.gtZero] using h
        simp [timeTakenSpec, hq]
    all_goals rfl
  · intro q hq
    simp [timeTakenSpec, hq]

/-- Claim C7 witness: the not-finite rule at NaN yields 1. -/
theorem timeTaken_normalization_witness :
    (JsNum.nan.isFinite = false ∨ JsNum.nan.gtZero = false)
    ∧ timeTakenSpec .nan = 1 :=
  ⟨Or.inl rfl, (timeTaken_normalization env0 0 [] (mkRaw .undef)
      { tasks := [], lastDeleted := none }).2.2.2.1 .nan (Or.inl rfl)⟩

/-- Claim C8: `normalizeTasks` stores a status inside the closed enum
{Todo, In Progress, Done} and a priority inside {High, Medium, Low},
keeping a supplied member of the enum and replacing anything else with
the defaults Todo and Low respectively. -/
theorem enum_normalization (env : Env) (idx : ℕ) (seen : List String)
    (r : RawTask) :
    ((normalizeOne env idx seen r).status ∈ statusEnum)
    ∧ ((normalizeOne env idx seen r).priority ∈ priorityEnum)
    ∧ (∀ s0, r.status = .str s0 → s0 ∈ statusEnum →
        (normalizeOne env idx seen r).status = s0)
    ∧ ((∀ s0, r.status = .str s0 → s0 ∉ statusEnum) →
        (normalizeOne env idx seen r).status = "Todo")
    ∧ (∀ s0, r.priority = .str s0 → s0 ∈ priorityEnum →
        (normalizeOne env idx seen r).priority = s0)
    ∧ ((∀ s0, r.priority = .str s0 → s0 ∉ priorityEnum) →
        (normalizeOne env idx seen r).priority = "Low") := by
  refine ⟨enumField_mem _ _ _ (by decide), enumField_mem _ _ _ (by decide),
    ?_, ?_, ?_, ?_⟩
  · intro s0 h hmem
    show enumField statusEnum "Todo" r.status = s0
    rw [h]
    exact enumField_keep _ _ _ hmem
  · intro h
    exact enumField_dflt _ _ _ h
  · intro s0 h hmem
    show enumField priorityEnum "Low" r.priority = s0
    rw [h]
    exact enumField_keep _ _ _ hmem
  · intro h
    exact enumField_dflt _ _ _ h

/-- Claim C8 witness: the supplied valid status `Todo` of a concrete raw
record is preserved. -/
theorem enum_normalization_witness :
    (("Todo" : String) ∈ statusEnum)
    ∧ (normalizeOne env0 0 [] (mkRaw .undef)).status = "Todo" :=
  ⟨by decide, (enum_normalization env0 0 [] (mkRaw .undef)).2.2.1 "Todo" rfl (by decide)⟩

end TaskApp
